import Mathlib

/-!
# Verification of `src/discographyController.ts`

A shallow embedding of the discography fetch orchestrator of the
`spicetify-ui-redesign` repository, together with theorems settling the
frozen claims about it.

Conventions of the embedding:

* JSON values (the payloads of `Spicetify.CosmosAsync.get` and the raw
  items fed to the normalizer) are modelled by the inductive type `Json`.
  JavaScript truthiness, `||`-chains, member access, `toString()` and
  `includes` are modelled by the functions `jsTruthy`, `jsOr`, `getF`,
  `jsToString`, `strIncludes` below.  JS numbers are modelled by `Int`
  (no claim exercises fractional values).
* The module-global mutable state of the controller (`phase`,
  `activeArtistId`, the two caches, `currentReleases`) is the structure
  `St`; JS `Map`s are insertion-ordered association lists, matching the
  iteration order of `Map.values()`.
* The `async` function `fetchDiscographyForArtist` is cut at its `await`
  suspension points into the synchronous segments `callStart`,
  `resumeOverview`, `resumePage`, `resumeDelay` and `finalize`; the
  event-loop interleaving of several in-flight calls is the small-step
  machine `applyEv` over `Config` (global state plus the suspended runs).
  Each segment is a line-by-line transcription of the corresponding
  region of the source; continuations between `await`s are atomic, which
  matches the single-threaded event loop.
* A fetch either resolves with a JSON value or rejects with a JSON error
  value (`FetchResult`); rejections are classified by the transcription
  `isRateLimitError` of the source predicate.
* The only unexpected-exception point of the pipeline's `try` block is
  the finalization step (`localeCompare` on a non-string `release_date`
  throws a `TypeError`); whether that step throws is an environment bit
  (`finThrows`) carried by the run, and the `catch`/`finally` blocks are
  transcribed on that branch.
-/

/-- JSON values, the shape of all remote payloads.  `num` uses `Int`:
no claim depends on fractional numbers. -/
inductive Json where
  | null
  | bool (b : Bool)
  | num (n : Int)
  | str (s : String)
  | arr (elems : List Json)
  | obj (fields : List (String × Json))

mutual

/-- Structural equality test for `Json` values. -/
def Json.beq : Json → Json → Bool
  | .null, .null => true
  | .bool a, .bool b => a == b
  | .num a, .num b => a == b
  | .str a, .str b => a == b
  | .arr a, .arr b => Json.beqList a b
  | .obj a, .obj b => Json.beqFields a b
  | _, _ => false

/-- Elementwise equality of JSON arrays. -/
def Json.beqList : List Json → List Json → Bool
  | [], [] => true
  | a :: as, b :: bs => Json.beq a b && Json.beqList as bs
  | _, _ => false

/-- Fieldwise equality of JSON objects. -/
def Json.beqFields : List (String × Json) → List (String × Json) → Bool
  | [], [] => true
  | (ka, va) :: as, (kb, vb) :: bs => ka == kb && Json.beq va vb && Json.beqFields as bs
  | _, _ => false

end

instance : BEq Json := ⟨Json.beq⟩

/-- JavaScript truthiness of a JSON value: `null`/`undefined`, `false`,
`0` and `""` are falsy; every array and object is truthy. -/
def jsTruthy : Json → Bool
  | .null => false
  | .bool b => b
  | .num n => n != 0
  | .str s => s != ""
  | .arr _ => true
  | .obj _ => true

/-- The JavaScript `a || b` operator on JSON values. -/
def jsOr (a b : Json) : Json :=
  if jsTruthy a then a else b

/-- Member access `v.k`: field lookup on objects, `undefined` (modelled
as `null`) on everything else.  Also models optional chaining `v?.k`,
since missing links yield `null` which again yields `null`. -/
def getF (v : Json) (k : String) : Json :=
  match v with
  | .obj fields => (fields.lookup k).getD .null
  | _ => .null

/-- Index access `v?.[i]` as used on the `images` candidates: positional
on arrays, string-keyed on objects, `undefined` elsewhere. -/
def idxF (v : Json) (i : Nat) : Json :=
  match v with
  | .arr xs => (xs.get? i).getD .null
  | .obj fields => (fields.lookup (toString i)).getD .null
  | _ => .null

mutual

/-- JavaScript `String(v)` / `v.toString()` coercion.  Array elements
that are `null` stringify to the empty string inside `Array.join`. -/
def jsToString : Json → String
  | .null => "null"
  | .bool b => if b then "true" else "false"
  | .num n => toString n
  | .str s => s
  | .arr xs => String.intercalate "," (jsToStringList xs)
  | .obj _ => "[object Object]"

/-- Stringification of the elements of a JSON array, as in `Array.join`:
`null` elements become the empty string. -/
def jsToStringList : List Json → List String
  | [] => []
  | .null :: xs => "" :: jsToStringList xs
  | x :: xs => jsToString x :: jsToStringList xs

end

/-- Prefix-at-each-position scan underlying `strIncludes`. -/
def infixAux (needle : List Char) : List Char → Bool
  | [] => needle.isEmpty
  | c :: rest => needle.isPrefixOf (c :: rest) || infixAux needle rest

/-- JavaScript `s.includes(sub)`. -/
def strIncludes (s sub : String) : Bool :=
  infixAux sub.toList s.toList

/-- JavaScript `s.toLowerCase()`.  `Char.toLower` lowers exactly the
ASCII range, which agrees with JS on every string the controller
compares (`"album"`, `"single"`, ...). -/
def strToLower (s : String) : String :=
  String.mk (s.data.map Char.toLower)

/-- Splitting scan underlying `jsSplitPop`. -/
def splitAux (sep : Char) : List Char → List Char → List (List Char)
  | [], cur => [cur.reverse]
  | c :: rest, cur =>
      if c = sep then cur.reverse :: splitAux sep rest []
      else splitAux sep rest (c :: cur)

/-- JavaScript `s.split(sep).pop()` (the split of a string is never the
empty array, so `pop` is total). -/
def jsSplitPop (s : String) (sep : Char) : String :=
  String.mk ((splitAux sep s.data []).getLastD [])

/-- Code-point lexicographic `≤` on strings, the order realized by
JavaScript `a.localeCompare(b) <= 0` on the ASCII date strings the
controller sorts (the source comment calls it "lexicographic string
comparison, not calendar-aware parsing"). -/
def strLexLeAux : List Char → List Char → Bool
  | [], _ => true
  | _ :: _, [] => false
  | a :: as, b :: bs => if a = b then strLexLeAux as bs else decide (a.toNat < b.toNat)

/-- Comparison `strLexLeAux` on the character data of two strings. -/
def strLexLe (a b : String) : Bool :=
  strLexLeAux a.data b.data

/-- The six pipeline phases of the controller (source line 7). -/
inductive Phase where
  | IDLE
  | ARTISTVIEW
  | COOLDOWN
  | HYDRATING
  | DONE
  | ABORTED
deriving DecidableEq

/-- A normalized catalog entry (`DiscographyRelease`, source lines 9-16).
The source fields are whatever JS values the `||`-chains of
`normalizeReleaseItem` resolved, so all fields are `Json`;
`normalizeReleaseItem` stores a string in `album_type`. -/
structure DiscographyRelease where
  id : Json
  name : Json
  release_date : Json
  album_type : Json
  uri : Json
  imageUrl : Json

/-- Transcription of `const uri = item.uri || item?.link?.uri || item?.album?.uri || "";`
(source line 123). -/
def resolveUri (item : Json) : Json :=
  jsOr (getF item "uri")
    (jsOr (getF (getF item "link") "uri")
      (jsOr (getF (getF item "album") "uri") (.str "")))

/-- Transcription of `const idFromUri = typeof uri === "string" && uri.includes(":") ? uri.split(":").pop() : "";`
(source line 124). -/
def resolveIdFromUri (uri : Json) : Json :=
  match uri with
  | .str s => if strIncludes s ":" then .str (jsSplitPop s ':') else .str ""
  | _ => .str ""

/-- Transcription of `const id = item.id || idFromUri || "";` (source line 125). -/
def resolveId (item : Json) : Json :=
  jsOr (getF item "id") (jsOr (resolveIdFromUri (resolveUri item)) (.str ""))

/-- The name resolution of `normalizeReleaseItem` (source lines
127-136): the direct-field chain, then — when that was falsy and the
item is a JS object (arrays included) — the nested fallbacks. -/
def resolveName (item : Json) : Json :=
  -- let name = item.name || item.title || item.displayName || item.release_name || "";
  let name0 := jsOr (getF item "name")
    (jsOr (getF item "title")
      (jsOr (getF item "displayName")
        (jsOr (getF item "release_name") (.str ""))))
  -- if (!name && typeof item === "object") { ...nested fallbacks... }
  if !jsTruthy name0 && (match item with | .obj _ => true | .arr _ => true | _ => false) then
    if jsTruthy (getF (getF item "album") "name") then getF (getF item "album") "name"
    else if jsTruthy (getF (getF item "metadata") "name") then getF (getF item "metadata") "name"
    else if jsTruthy (getF (getF item "content") "name") then getF (getF item "content") "name"
    else if jsTruthy (getF (getF item "header") "title") then getF (getF item "header") "title"
    else if jsTruthy (getF (getF item "header") "subtitle") then getF (getF item "header") "subtitle"
    else if jsTruthy (getF (getF item "headerData") "title") then getF (getF item "headerData") "title"
    else name0
  else name0

/-- Transcription of `const albumTypeRaw = (item.album_type || item.albumType || item.type || item.release_type || "").toString().toLowerCase();`
(source lines 140-142). -/
def resolveAlbumTypeRaw (item : Json) : String :=
  strToLower (jsToString (jsOr (getF item "album_type")
    (jsOr (getF item "albumType")
      (jsOr (getF item "type")
        (jsOr (getF item "release_type") (.str ""))))))

/-- The allow-list of release-like type tags (source line 143). -/
def albumTypeAllowList : List String :=
  ["album", "single", "compilation", "appears_on", "ep"]

/-- Transcription of `const isAlbumUri = typeof uri === "string" && uri.includes("album");`
(source line 144). -/
def uriAlbumHeuristic (uri : Json) : Bool :=
  match uri with
  | .str s => strIncludes s "album"
  | _ => false

/-- Transcription of `normalizeReleaseItem` (source lines 120-161), rendered clause by
clause (the field-resolution chains are the named functions above). -/
def normalizeReleaseItem (item : Json) : Option DiscographyRelease :=
  -- if (!item) return null;
  if !jsTruthy item then none
  else
    let uri := resolveUri item
    let id := resolveId item
    let name := resolveName item
    -- if (!id || !name) return null;
    if !jsTruthy id || !jsTruthy name then none
    else
      let albumTypeRaw := resolveAlbumTypeRaw item
      -- const isAlbumType = ["album", "single", "compilation", "appears_on", "ep"].includes(albumTypeRaw);
      let isAlbumType := albumTypeAllowList.contains albumTypeRaw
      let isAlbumUri := uriAlbumHeuristic uri
      -- if (!isAlbumType && !isAlbumUri) return null;
      if !isAlbumType && !isAlbumUri then none
      else
        -- const releaseDate = item.release_date || item.releaseDate || item.release_date_iso || item.date || "";
        let releaseDate := jsOr (getF item "release_date")
          (jsOr (getF item "releaseDate")
            (jsOr (getF item "release_date_iso")
              (jsOr (getF item "date") (.str ""))))
        -- const images = item.images || item?.coverArt?.sources || item?.image?.sources || [];
        let images := jsOr (getF item "images")
          (jsOr (getF (getF item "coverArt") "sources")
            (jsOr (getF (getF item "image") "sources") (.arr [])))
        -- const imageUrl = images?.[0]?.url || images?.[0]?.uri || item?.image?.url || "";
        let imageUrl := jsOr (getF (idxF images 0) "url")
          (jsOr (getF (idxF images 0) "uri")
            (jsOr (getF (getF item "image") "url") (.str "")))
        some {
          id := id
          name := name
          release_date := releaseDate
          album_type := .str albumTypeRaw
          -- uri: uri || (id ? `spotify:album:${id}` : "")
          uri := jsOr uri (if jsTruthy id then .str ("spotify:album:" ++ jsToString id) else .str "")
          imageUrl := imageUrl }

/-- Test `releasesMap.has(id)` on the insertion-ordered release map (JS `Map`
keyed by `release.id`; modelled as the list of values in insertion
order). -/
def rmHas (m : List DiscographyRelease) (i : Json) : Bool :=
  m.any (fun r => r.id == i)

/-- Lookup in `releasesMap` by id, used used to state first-wins facts. -/
def rmFind (m : List DiscographyRelease) (i : Json) : Option DiscographyRelease :=
  m.find? (fun r => r.id == i)

/-- Transcription of `if (release && !releasesMap.has(release.id)) releasesMap.set(release.id, release)`
(the insertion step shared by `collectReleasesDeep` (lines 176-179) and
the paged fetch (lines 210-215)). -/
def rmInsert (m : List DiscographyRelease) (o : Option DiscographyRelease) :
    List DiscographyRelease :=
  match o with
  | some r => if rmHas m r.id then m else m ++ [r]
  | none => m

mutual

/-- Transcription of `collectReleasesDeep` (source lines 163-182): deep search for
normalizable release objects, guarded by the depth ceiling `10`.  The
guard `depth > 10` is transcribed verbatim; it is what bounds the
recursion of the JS original on arbitrary (even cyclic) object graphs. -/
def collectReleasesDeep (value : Json) (m : List DiscographyRelease) (depth : Nat) :
    List DiscographyRelease :=
  -- if (!value || depth > 10) return;
  if !jsTruthy value || depth > 10 then m
  else
    match value with
    -- if (Array.isArray(value)) { value.forEach(...collect(item, depth+1)); return; }
    | .arr xs => collectReleasesList xs m depth
    -- if (typeof value === "object") { normalize, first-wins insert, then recurse into values }
    | .obj fields => collectReleasesFields fields (rmInsert m (normalizeReleaseItem value)) depth
    | _ => m

/-- Left-to-right `forEach` over an array's elements at `depth + 1`. -/
def collectReleasesList (xs : List Json) (m : List DiscographyRelease) (depth : Nat) :
    List DiscographyRelease :=
  match xs with
  | [] => m
  | x :: rest => collectReleasesList rest (collectReleasesDeep x m (depth + 1)) depth

/-- Left-to-right `Object.values(...).forEach` over an object's field
values at `depth + 1`. -/
def collectReleasesFields (fs : List (String × Json)) (m : List DiscographyRelease)
    (depth : Nat) : List DiscographyRelease :=
  match fs with
  | [] => m
  | (_, v) :: rest => collectReleasesFields rest (collectReleasesDeep v m (depth + 1)) depth

end

/-- The `items.forEach` body of the paged fetch (source lines 210-215):
normalize each raw item and insert first-wins. -/
def insertItems (m : List DiscographyRelease) (items : List Json) : List DiscographyRelease :=
  items.foldl (fun acc it => rmInsert acc (normalizeReleaseItem it)) m

/-- The comparator order of `sort((a, b) => b.release_date.localeCompare(a.release_date))`
(source lines 379-381): `a` may stay before `b` iff the comparator is
`<= 0`, i.e. `b.release_date <= a.release_date` — descending date order.
JS calls `localeCompare` on the `release_date` values directly; on a
non-string it would throw (that is the pipeline's unexpected-error
path), so the comparator is only ever evaluated on string dates, read
off by `relDateStr`. -/
def relDateStr (r : DiscographyRelease) : String :=
  match r.release_date with
  | .str s => s
  | _ => ""

/-- Boolean comparator: `a` precedes `b` in the descending sort. -/
def relDateGe (a b : DiscographyRelease) : Bool :=
  strLexLe (relDateStr b) (relDateStr a)

/-- Comparator `relDateGe` as a decidable relation, the "may precede" order of the
comparator. -/
def relDateOrder (a b : DiscographyRelease) : Prop :=
  relDateGe a b = true

instance : DecidableRel relDateOrder := fun a b => by
  unfold relDateOrder
  infer_instance

/-- Transcription of `Array.from(releasesMap.values()).sort((a, b) => b.release_date.localeCompare(a.release_date))`
(source lines 379-381).  ECMAScript requires `Array.prototype.sort` to
be a stable sort; for the total preorder `relDateOrder` all stable sorts
compute the same list, here realized by `List.insertionSort` (the
sortedness, stability and permutation theorems below pin the function
down uniquely). -/
def sortReleases (m : List DiscographyRelease) : List DiscographyRelease :=
  List.insertionSort relDateOrder m

/-- Transcription of `isRateLimitError` (source lines 71-75). -/
def isRateLimitError (err : Json) : Bool :=
  -- const status = err?.status || err?.response?.status || err?.statusCode;
  let status := jsOr (getF err "status")
    (jsOr (getF (getF err "response") "status") (getF err "statusCode"))
  -- const message = (err?.message || "").toString();
  let message := jsToString (jsOr (getF err "message") (.str ""))
  -- return status === 429 || message.includes("429") || message.toLowerCase().includes("rate");
  status == Json.num 429 || strIncludes message "429" || strIncludes (strToLower message) "rate"

/-- Outcome of one `Spicetify.CosmosAsync.get` call: resolution with a
JSON payload, or rejection with a JSON error value. -/
inductive FetchResult where
  | ok (data : Json)
  | err (e : Json)

/-- The module-global mutable state of the controller (source lines
22-32), plus the ambient availability of `Spicetify.CosmosAsync.get`
(which the source re-tests at each entry point). -/
structure St where
  phase : Phase
  activeArtistId : Option String
  releaseCache : List (String × List DiscographyRelease)
  albumCache : List (String × Json)
  currentReleases : List DiscographyRelease
  cosmosAvailable : Bool

/-- Semantics of `Map.set`: replace an existing key in place, else append. -/
def setAssoc (m : List (String × α)) (k : String) (v : α) : List (String × α) :=
  match m with
  | [] => [(k, v)]
  | (k', v') :: rest => if k' = k then (k, v) :: rest else (k', v') :: setAssoc rest k v

/-- Transcription of `transitionPhase` (source lines 48-51). -/
def transitionPhase (newPhase : Phase) (st : St) : St :=
  { st with phase := newPhase }

/-- Transcription of `abortCurrentWork` (source lines 53-57): transition to `ABORTED` and
clear the active artist. -/
def abortCurrentWork (st : St) : St :=
  { transitionPhase .ABORTED st with activeArtistId := none }

/-- Transcription of `reset` (source lines 59-63): phase back to `IDLE` **and**
`activeArtistId = null`. -/
def resetSt (st : St) : St :=
  { st with phase := .IDLE, activeArtistId := none }

/-- Transcription of `getDiscographyStatus` (source lines 485-495). -/
def getDiscographyStatus (st : St) : Phase × Option String × Nat :=
  (st.phase, st.activeArtistId, st.currentReleases.length)

/-- Transcription of `abortDiscographyFetch` (source lines 475-479). -/
def abortDiscographyFetch (st : St) : St :=
  if st.phase ≠ .IDLE ∧ st.phase ≠ .DONE then abortCurrentWork st else st

/-- The tail of `fetchDiscographyForArtist` once
`fetchArtistAlbumsPaged` has returned (source lines 371-410), including
the `catch` and `finally` blocks.  `m` is the merged release map,
`finThrows` says whether the finalization step raises an unexpected
exception (in JS: `localeCompare` called on a non-string
`release_date`), which is caught by the `catch` block; the throw happens
while sorting, before `currentReleases` is reassigned. -/
def finalize (artistId : String) (finThrows : Bool) (m : List DiscographyRelease)
    (st : St) : St × List DiscographyRelease :=
  if m.length = 0 then
    -- transitionPhase("DONE"); reset(); return [];
    let st := transitionPhase .DONE st
    let st := resetSt st
    -- finally: if (phase !== "ABORTED") reset();
    let st := if st.phase ≠ .ABORTED then resetSt st else st
    (st, [])
  else if finThrows then
    -- catch: transitionPhase("ABORTED"); reset(); return currentReleases;
    let ret := st.currentReleases
    let st := transitionPhase .ABORTED st
    let st := resetSt st
    let st := if st.phase ≠ .ABORTED then resetSt st else st
    (st, ret)
  else
    -- currentReleases = Array.from(releasesMap.values()).sort(...);
    let sorted := sortReleases m
    let st := { st with currentReleases := sorted }
    -- transitionPhase("DONE");
    let st := transitionPhase .DONE st
    -- discographyReleaseCache.set(artistId, currentReleases); return currentReleases;
    let st := { st with releaseCache := setAssoc st.releaseCache artistId sorted }
    let st := if st.phase ≠ .ABORTED then resetSt st else st
    (st, sorted)

/-- The failure tail of the pipeline when the overview yielded nothing
or the run observed `ABORTED` (source lines 358-362 plus the `finally`
block): `reset(); return [];`. -/
def overviewFailedTail (st : St) : St × List DiscographyRelease :=
  let st := resetSt st
  let st := if st.phase ≠ .ABORTED then resetSt st else st
  (st, [])

/-- Result of the synchronous prefix of `fetchDiscographyForArtist`
(source lines 320-357): either the call returns without ever awaiting,
or it suspends at the `ArtistView` overview fetch. -/
inductive CallOut where
  | ret (v : List DiscographyRelease)
  | suspendOverview

/-- The synchronous prefix of `fetchDiscographyForArtist` (source lines
320-357): the abort-on-different-artist guard, the cache check, the
already-working guard, and the start of a new pipeline up to the
`await Spicetify.CosmosAsync.get` inside `fetchArtistView`.
`assertPhase(["ARTISTVIEW"])` (line 82) cannot throw here because
`transitionPhase("ARTISTVIEW")` ran synchronously two lines earlier. -/
def callStart (artistId : String) (st : St) : St × CallOut :=
  -- if (activeArtistId && activeArtistId !== artistId) abortCurrentWork();
  let st :=
    match st.activeArtistId with
    | some a => if a ≠ "" ∧ a ≠ artistId then abortCurrentWork st else st
    | none => st
  -- if (discographyReleaseCache.has(artistId)) return discographyReleaseCache.get(artistId) || [];
  match st.releaseCache.lookup artistId with
  | some cached => (st, .ret cached)
  | none =>
    -- if (activeArtistId === artistId && phase !== "IDLE" && phase !== "DONE") return currentReleases;
    if st.activeArtistId = some artistId ∧ st.phase ≠ .IDLE ∧ st.phase ≠ .DONE then
      (st, .ret st.currentReleases)
    else
      -- activeArtistId = artistId; reset();
      let st := { st with activeArtistId := some artistId }
      let st := resetSt st
      -- try { transitionPhase("ARTISTVIEW");
      let st := transitionPhase .ARTISTVIEW st
      -- fetchArtistView: if (!Spicetify?.CosmosAsync?.get) return null  →  main fail tail
      if !st.cosmosAvailable then
        let r := overviewFailedTail st
        (r.1, .ret r.2)
      else
        (st, .suspendOverview)

/-- Result of resuming a run at the overview fetch: the call returns, or
it proceeds into `fetchArtistAlbumsPaged` and suspends at the first page
fetch with the releases collected from the overview. -/
inductive OvOut where
  | ret (v : List DiscographyRelease)
  | toPage (m : List DiscographyRelease)

/-- Resumption of a run at `await Spicetify.CosmosAsync.get` inside
`fetchArtistView` (source lines 98-113), followed by the synchronous
continuation of `fetchDiscographyForArtist` (lines 357-369) up to the
first page fetch of `fetchArtistAlbumsPaged` (lines 193-205): the
post-await abort check, the catch-with-rate-limit classification, the
`!artistViewData || phase === "ABORTED"` check, `collectReleasesDeep`
over the payload, and the entry checks of the paged fetch. -/
def resumeOverview (artistId : String) (finThrows : Bool) (res : FetchResult)
    (st : St) : St × OvOut :=
  match res with
  | .err e =>
      -- catch: if (isRateLimitError(error)) transitionPhase("ABORTED"); return null;
      let st := if isRateLimitError e then transitionPhase .ABORTED st else st
      let r := overviewFailedTail st
      (r.1, .ret r.2)
  | .ok data =>
      -- if (phase === "ABORTED") return null;   (inside fetchArtistView, line 100)
      if st.phase = .ABORTED then
        let r := overviewFailedTail st
        (r.1, .ret r.2)
      -- if (!artistViewData || phase === "ABORTED") { reset(); return []; }  (line 358)
      else if !jsTruthy data then
        let r := overviewFailedTail st
        (r.1, .ret r.2)
      else
        -- const releasesMap = new Map(); collectReleasesDeep(artistViewData, releasesMap);
        let m := collectReleasesDeep data [] 0
        -- fetchArtistAlbumsPaged entry (lines 193-205):
        -- if (!Spicetify?.CosmosAsync?.get) return;  → straight to the main tail
        if !st.cosmosAvailable then
          let r := finalize artistId finThrows m st
          (r.1, .ret r.2)
        -- while (page < maxPages) { if (phase === "ABORTED") return; ... await get(url) }
        else if st.phase = .ABORTED then
          let r := finalize artistId finThrows m st
          (r.1, .ret r.2)
        else
          (st, .toPage m)

/-- Result of resuming a run at a page fetch of
`fetchArtistAlbumsPaged`: the call returns, or the run suspends at the
inter-page `delay(5000)` carrying the grown map and the incremented
page/offset counters. -/
inductive PgOut where
  | ret (v : List DiscographyRelease)
  | toDelay (m : List DiscographyRelease) (page offset : Nat)

/-- Resumption of a run at `await Spicetify.CosmosAsync.get` for page
`page` of `fetchArtistAlbumsPaged` (source lines 205-230): item
extraction, the zero-items stop, the first-wins inserts, the `!data.next`
stop, the counter increments before `delay(5000)`, and the `catch` that
stops paging on any error (a rate-limit error is only logged, lines
226-228); every stop falls through to the main tail `finalize`. -/
def resumePage (artistId : String) (finThrows : Bool) (m : List DiscographyRelease)
    (page offset : Nat) (res : FetchResult) (st : St) : St × PgOut :=
  match res with
  | .err _ =>
      -- catch (error) { ... break; }   — phase is not touched, even for 429
      let r := finalize artistId finThrows m st
      (r.1, .ret r.2)
  | .ok data =>
      -- const items = Array.isArray(data?.items) ? data.items : [];
      let items := match getF data "items" with | .arr xs => xs | _ => []
      -- if (items.length === 0) break;
      if items.length = 0 then
        let r := finalize artistId finThrows m st
        (r.1, .ret r.2)
      else
        -- items.forEach(... first-wins insert ...)
        let m := insertItems m items
        -- if (!data?.next) break;
        if !jsTruthy (getF data "next") then
          let r := finalize artistId finThrows m st
          (r.1, .ret r.2)
        else
          -- page += 1; offset += limit; await delay(5000);
          (st, .toDelay m (page + 1) (offset + 50))

/-- Result of the inter-page delay elapsing: the loop either exits (the
call returns through the main tail) or starts the next page fetch. -/
inductive DlOut where
  | ret (v : List DiscographyRelease)
  | toPage (m : List DiscographyRelease) (page offset : Nat)

/-- Resumption of a run at `await delay(5000)` (source lines 199-223):
back to the top of the `while` loop — the `page < maxPages` test
(`maxPages = 2`, the value passed at line 369) and the abort check;
leaving the loop falls through to the main tail `finalize`.  Note that
when the abort check fires, `fetchDiscographyForArtist` still proceeds
to its finalization (lines 371-399) without re-checking the phase. -/
def resumeDelay (artistId : String) (finThrows : Bool) (m : List DiscographyRelease)
    (page offset : Nat) (st : St) : St × DlOut :=
  if page ≥ 2 then
    let r := finalize artistId finThrows m st
    (r.1, .ret r.2)
  else if st.phase = .ABORTED then
    let r := finalize artistId finThrows m st
    (r.1, .ret r.2)
  else
    (st, .toPage m page offset)

/-- The continuation of a suspended `fetchDiscographyForArtist` call:
which `await` it is parked at, with the run-local variables
(`releasesMap`, `page`, `offset`) that are live across that `await`. -/
inductive RunK where
  | atOverview
  | atPage (m : List DiscographyRelease) (page offset : Nat)
  | atDelay (m : List DiscographyRelease) (page offset : Nat)

/-- One suspended in-flight call: its `artistId` argument, whether its
finalization step will raise an unexpected exception, and its
continuation. -/
structure RunTask where
  artist : String
  finThrows : Bool
  k : RunK

/-- A configuration of the event loop: the module-global state plus all
suspended in-flight calls. -/
structure Config where
  st : St
  tasks : List RunTask

/-- Observable outcome of one event-loop step: the value a call returned
during the step (if one completed), and whether the step started an
overview or page fetch. -/
structure Out where
  ret : Option (List DiscographyRelease)
  startedOverview : Bool
  startedPage : Bool

/-- The silent outcome: nothing returned, no fetch started. -/
def Out.none' : Out :=
  { ret := none, startedOverview := false, startedPage := false }

/-- Events the environment can deliver at event-loop granularity: a new
`fetchDiscographyForArtist(artist)` call, the settlement of the pending
fetch of suspended task `i`, the elapse of task `i`'s inter-page delay,
and an `abortDiscographyFetch()` call.  `hydrateAlbumDetails` is not an
event of this machine: it reads and writes only `albumCache`, which no
transition here touches, so interleaving it cannot affect any fact
proved about the machine. -/
inductive Ev where
  | call (artist : String) (finThrows : Bool)
  | resolveFetch (i : Nat) (res : FetchResult)
  | elapse (i : Nat)
  | abortExt

/-- One step of the event loop.  A resumed call runs synchronously to
its next suspension point or to completion (single-threaded JS);
settlement events for indices or continuations with no pending promise
are no-ops. -/
def applyEv (c : Config) (e : Ev) : Config × Out :=
  match e with
  | .call a ft =>
    match callStart a c.st with
    | (st, .ret v) => ({ c with st := st }, { Out.none' with ret := some v })
    | (st, .suspendOverview) =>
        ({ st := st, tasks := c.tasks ++ [{ artist := a, finThrows := ft, k := .atOverview }] },
         { Out.none' with startedOverview := true })
  | .resolveFetch i res =>
    match c.tasks.get? i with
    | none => (c, Out.none')
    | some t =>
      match t.k with
      | .atOverview =>
        match resumeOverview t.artist t.finThrows res c.st with
        | (st, .ret v) => ({ st := st, tasks := c.tasks.eraseIdx i }, { Out.none' with ret := some v })
        | (st, .toPage m) =>
            ({ st := st, tasks := c.tasks.set i { t with k := .atPage m 0 0 } },
             { Out.none' with startedPage := true })
      | .atPage m page offset =>
        match resumePage t.artist t.finThrows m page offset res c.st with
        | (st, .ret v) => ({ st := st, tasks := c.tasks.eraseIdx i }, { Out.none' with ret := some v })
        | (st, .toDelay m2 p2 o2) =>
            ({ st := st, tasks := c.tasks.set i { t with k := .atDelay m2 p2 o2 } }, Out.none')
      | .atDelay _ _ _ => (c, Out.none')
  | .elapse i =>
    match c.tasks.get? i with
    | none => (c, Out.none')
    | some t =>
      match t.k with
      | .atDelay m page offset =>
        match resumeDelay t.artist t.finThrows m page offset c.st with
        | (st, .ret v) => ({ st := st, tasks := c.tasks.eraseIdx i }, { Out.none' with ret := some v })
        | (st, .toPage m2 p2 o2) =>
            ({ st := st, tasks := c.tasks.set i { t with k := .atPage m2 p2 o2 } },
             { Out.none' with startedPage := true })
      | _ => (c, Out.none')
  | .abortExt => ({ c with st := abortDiscographyFetch c.st }, Out.none')

/-- The state part of one event-loop step. -/
def stepC (c : Config) (e : Ev) : Config :=
  (applyEv c e).1

/-- Run a list of events. -/
def runEvents (c : Config) (es : List Ev) : Config :=
  es.foldl stepC c

/-- The module state right after loading `discographyController.ts`
(source lines 22-32), with the Cosmos fetch capability present. -/
def initSt : St :=
  { phase := .IDLE
    activeArtistId := none
    releaseCache := []
    albumCache := []
    currentReleases := []
    cosmosAvailable := true }

/-- The initial event-loop configuration: no suspended calls. -/
def initConfig : Config :=
  { st := initSt, tasks := [] }

/-- Configurations the program can actually be in between event-loop
turns. -/
inductive Reachable : Config → Prop
  | init : Reachable initConfig
  | next {c : Config} (e : Ev) : Reachable c → Reachable (stepC c e)

/-- The `while` loop of `fetchArtistAlbumsPaged` (source lines 199-231)
as a standalone function for the non-interleaved paging claims.  `pages`
is the oracle of page-fetch outcomes; the loop body never writes `phase`
(the `catch` at lines 224-230 only logs, also for rate-limit errors).
Besides the final map it returns the number of page fetches that were
issued, so that the stop conditions are observable. -/
def pagedLoop (pages : Nat → FetchResult) (phase : Phase) (m : List DiscographyRelease)
    (page offset maxPages : Nat) : List DiscographyRelease × Nat :=
  -- while (page < maxPages) {
  if page ≥ maxPages then (m, 0)
  -- if (phase === "ABORTED") return;
  else if phase = .ABORTED then (m, 0)
  else
    match pages page with
    -- catch (error) { ...log (429 or not)... break; }
    | .err _ => (m, 1)
    | .ok data =>
      -- const items = Array.isArray(data?.items) ? data.items : [];
      let items := match getF data "items" with | .arr xs => xs | _ => []
      -- if (items.length === 0) break;
      if items.length = 0 then (m, 1)
      else
        -- items.forEach(... first-wins insert ...)
        let m2 := insertItems m items
        -- if (!data?.next) break;
        if !jsTruthy (getF data "next") then (m2, 1)
        else
          -- page += 1; offset += limit; await delay(5000);
          let r := pagedLoop pages phase m2 (page + 1) (offset + 50) maxPages
          (r.1, r.2 + 1)
termination_by maxPages - page
decreasing_by
  omega

/-- Transcription of `fetchArtistAlbumsPaged` (source lines 188-232), non-interleaved:
the Cosmos availability guard followed by the paging loop. -/
def fetchArtistAlbumsPaged (cosmos : Bool) (phase : Phase) (pages : Nat → FetchResult)
    (m : List DiscographyRelease) (maxPages : Nat) : List DiscographyRelease × Nat :=
  if !cosmos then (m, 0)
  else pagedLoop pages phase m 0 0 maxPages

/-- Observable outcome of one `hydrateAlbumDetails` call: the returned
projection, the album cache afterwards, whether the detail fetch
capability was invoked, and how long the call waited in the pacing
delay. -/
structure HydrateOut where
  result : Option DiscographyRelease
  albumCache : List (String × Json)
  fetched : Bool
  waitedMs : Nat

/-- Transcription of `hydrateAlbumDetails` (source lines 417-469): cache hit returns the
projection of the cached raw detail with no delay and no fetch;
otherwise the call waits `delay(30000)`, fetches, and caches on truthy
success. -/
def hydrateAlbumDetails (albumId : String) (cosmos : Bool) (res : FetchResult)
    (cache : List (String × Json)) : HydrateOut :=
  -- if (albumCache.has(albumId)) { const cached = albumCache.get(albumId); return {...}; }
  match cache.lookup albumId with
  | some cached =>
      { result := some {
          id := .str albumId
          name := jsOr (getF cached "name") (.str albumId)
          release_date := jsOr (getF cached "release_date") (.str "")
          album_type := jsOr (getF cached "album_type") (.str "")
          uri := .str ("spotify:album:" ++ albumId)
          imageUrl := jsOr (getF (idxF (getF cached "images") 0) "url") (.str "") }
        albumCache := cache
        fetched := false
        waitedMs := 0 }
  | none =>
    -- await delay(30000);
    -- if (!Spicetify?.CosmosAsync?.get) return null;
    if !cosmos then
      { result := none, albumCache := cache, fetched := false, waitedMs := 30000 }
    else
      match res with
      | .err _ =>
          -- catch: log (rate-limit or not); return null — nothing cached
          { result := none, albumCache := cache, fetched := true, waitedMs := 30000 }
      | .ok album =>
          -- if (album) { albumCache.set(albumId, album); return {...}; } ... return null;
          if jsTruthy album then
            { result := some {
                id := .str albumId
                name := jsOr (getF album "name") (.str albumId)
                release_date := jsOr (getF album "release_date") (.str "")
                album_type := jsOr (getF album "album_type") (.str "")
                uri := jsOr (getF album "uri") (.str ("spotify:album:" ++ albumId))
                imageUrl := jsOr (getF (idxF (getF album "images") 0) "url") (.str "") }
              albumCache := setAssoc cache albumId album
              fetched := true
              waitedMs := 30000 }
          else
            { result := none, albumCache := cache, fetched := true, waitedMs := 30000 }

/-- A release literal used by the C6 witness. -/
def c6Rel (i d : String) : DiscographyRelease :=
  { id := .str i, name := .str "N", release_date := .str d, album_type := .str "album",
    uri := .str "u", imageUrl := .str "" }

/-- A release literal used by the C8 witness. -/
def c8Rel : DiscographyRelease :=
  { id := .str "k", name := .str "First", release_date := .str "", album_type := .str "album",
    uri := .str "u", imageUrl := .str "" }

/-- Concrete overview payload holding one valid nested release, used by
the machine traces. -/
def trPayload : Json :=
  .obj [("releases", .obj [("id", .str "r1"), ("name", .str "Album One"),
    ("type", .str "album"), ("release_date", .str "2020-01-01")])]

/-- The release `trPayload` normalizes to. -/
def trRel : DiscographyRelease :=
  { id := .str "r1", name := .str "Album One", release_date := .str "2020-01-01",
    album_type := .str "album", uri := .str "spotify:album:r1", imageUrl := .str "" }

/-- An error value that `isRateLimitError` classifies as ordinary. -/
def plainErr : Json := .obj [("message", .str "boom")]

/-- An error value carrying HTTP status 429. -/
def rlErr : Json := .obj [("status", .num 429)]

/-- Cached raw album detail used by the C9 witness. -/
def c9Cached : Json :=
  .obj [("name", .str "Cached Name"), ("release_date", .str "2021-01-01")]

/-- Module state with a stale non-empty `currentReleases`, as left
behind by an earlier successful run for another artist. -/
def c3StaleSt : St :=
  { phase := .ARTISTVIEW, activeArtistId := none, releaseCache := [], albumCache := [],
    currentReleases := [trRel], cosmosAvailable := true }

theorem charToNat_inj {a b : Char} (h : a.toNat = b.toNat) : a = b :=
  Char.ext (UInt32.toNat.inj h)

theorem strLexLeAux_refl : ∀ x : List Char, strLexLeAux x x = true
  | [] => rfl
  | _ :: as => by simpa [strLexLeAux] using strLexLeAux_refl as

theorem strLexLeAux_total : ∀ x y : List Char, strLexLeAux x y || strLexLeAux y x
  | [], _ => by simp [strLexLeAux]
  | _ :: _, [] => by simp [strLexLeAux]
  | a :: as, b :: bs => by
    by_cases hab : a = b
    · subst hab
      simpa [strLexLeAux] using strLexLeAux_total as bs
    · have hn : a.toNat ≠ b.toNat := fun hc => hab (charToNat_inj hc)
      simp only [strLexLeAux, if_neg hab, if_neg (Ne.symm hab)]
      simp only [Bool.or_eq_true, decide_eq_true_eq]
      omega

theorem strLexLeAux_trans :
    ∀ x y z : List Char, strLexLeAux x y = true → strLexLeAux y z = true →
      strLexLeAux x z = true
  | [], _, _, _, _ => rfl
  | _ :: _, [], _, h1, _ => by simp [strLexLeAux] at h1
  | _ :: _, _ :: _, [], _, h2 => by simp [strLexLeAux] at h2
  | a :: as, b :: bs, c :: cs, h1, h2 => by
    simp only [strLexLeAux] at h1 h2 ⊢
    by_cases hab : a = b
    · subst hab
      by_cases hbc : a = c
      · subst hbc
        simp only [if_pos rfl] at h1 h2 ⊢
        exact strLexLeAux_trans as bs cs h1 h2
      · simpa [hbc] using h2
    · by_cases hbc : b = c
      · subst hbc
        simpa [hab] using h1
      · simp only [if_neg hab] at h1
        simp only [if_neg hbc] at h2
        simp only [decide_eq_true_eq] at h1 h2
        by_cases hac : a = c
        · subst hac
          omega
        · simp only [if_neg hac, decide_eq_true_eq]
          omega

theorem strLexLe_eq_empty {s : String} (h : strLexLe s "" = true) : s = "" := by
  obtain ⟨data⟩ := s
  cases data with
  | nil => rfl
  | cons c cs => simp [strLexLe, strLexLeAux] at h

theorem relDateOrder_total (a b : DiscographyRelease) : relDateOrder a b ∨ relDateOrder b a := by
  unfold relDateOrder relDateGe strLexLe
  have := strLexLeAux_total (relDateStr b).data (relDateStr a).data
  rcases Bool.or_eq_true _ _ |>.mp this with h | h
  · exact Or.inl h
  · exact Or.inr h

theorem relDateOrder_trans (a b c : DiscographyRelease) :
    relDateOrder a b → relDateOrder b c → relDateOrder a c := by
  unfold relDateOrder relDateGe strLexLe
  intro h1 h2
  exact strLexLeAux_trans _ _ _ h2 h1

theorem relDateOrder_of_eq {a b : DiscographyRelease} (h : relDateStr a = relDateStr b) :
    relDateOrder a b := by
  unfold relDateOrder relDateGe strLexLe
  rw [h]
  exact strLexLeAux_refl _

/-- Claim C6: the release list produced by a successful
`fetchDiscographyForArtist` run is the merged map sorted by
`release_date` in descending lexicographic (code-point) string order:
the pipeline's finalization returns exactly `sortReleases` of the merged
map, the sorted list is a permutation of it, it is pairwise descending
in the date strings (in particular records with an empty `release_date`
cluster at the end), and the sort is stable: releases with equal date
strings keep their merge order.  The hypothesis restricts to string
`release_date` values — on a non-string date JS `localeCompare` would
throw instead of sorting (the pipeline's unexpected-error path), so only
such lists are ever sorted by a successful run. -/
theorem C6_successful_run_sorted_desc_lex_stable :
    ∀ l : List DiscographyRelease,
      (∀ r ∈ l, ∃ s, r.release_date = Json.str s) →
      (∀ artistId st, (finalize artistId false l st).2 = sortReleases l) ∧
      (sortReleases l).Perm l ∧
      List.Pairwise (fun a b => strLexLe (relDateStr b) (relDateStr a) = true) (sortReleases l) ∧
      List.Pairwise (fun a b => relDateStr a = "" → relDateStr b = "") (sortReleases l) ∧
      (∀ a b : DiscographyRelease, relDateStr a = relDateStr b →
        [a, b].Sublist l → [a, b].Sublist (sortReleases l)) := by
  intro l _hstr
  haveI : IsTotal DiscographyRelease relDateOrder := ⟨relDateOrder_total⟩
  haveI : IsTrans DiscographyRelease relDateOrder := ⟨relDateOrder_trans⟩
  have hsorted : List.Pairwise relDateOrder (sortReleases l) :=
    List.sorted_insertionSort relDateOrder l
  refine ⟨?_, List.perm_insertionSort relDateOrder l, hsorted, ?_, ?_⟩
  · intro artistId st
    cases l with
    | nil => simp [finalize, sortReleases]
    | cons a as => simp [finalize, sortReleases]
  · exact hsorted.imp (fun h ha => strLexLe_eq_empty (ha ▸ h))
  · intro a b hdate hsub
    exact List.pair_sublist_insertionSort (relDateOrder_of_eq hdate) hsub

theorem C6_successful_run_sorted_desc_lex_stable_witness :
    (sortReleases [c6Rel "a" "2020-01-01", c6Rel "b" "2022-06-15", c6Rel "c" ""]).Perm
      [c6Rel "a" "2020-01-01", c6Rel "b" "2022-06-15", c6Rel "c" ""] ∧
    List.Pairwise (fun a b => strLexLe (relDateStr b) (relDateStr a) = true)
      (sortReleases [c6Rel "a" "2020-01-01", c6Rel "b" "2022-06-15", c6Rel "c" ""]) := by
  have h := C6_successful_run_sorted_desc_lex_stable
    [c6Rel "a" "2020-01-01", c6Rel "b" "2022-06-15", c6Rel "c" ""]
    (by intro r hr; fin_cases hr <;> exact ⟨_, rfl⟩)
  exact ⟨h.2.1, h.2.2.1⟩

/-- Claim C7: `normalizeReleaseItem` returns `null` whenever the resolved
identifier or the resolved name is falsy, and whenever the lower-cased
type tag is outside the allow-list `{album, single, compilation,
appears_on, ep}` while the resolved uri does not contain `"album"`; in
particular on `{name: "Foo"}` and on
`{id: "x", uri: "spotify:track:x", type: "track"}`. -/
theorem C7_normalizeReleaseItem_rejects :
    (∀ item : Json,
        jsTruthy (resolveId item) = false ∨ jsTruthy (resolveName item) = false →
        normalizeReleaseItem item = none) ∧
    (∀ item : Json,
        albumTypeAllowList.contains (resolveAlbumTypeRaw item) = false →
        uriAlbumHeuristic (resolveUri item) = false →
        normalizeReleaseItem item = none) ∧
    normalizeReleaseItem (.obj [("name", .str "Foo")]) = none ∧
    normalizeReleaseItem
      (.obj [("id", .str "x"), ("uri", .str "spotify:track:x"), ("type", .str "track")]) = none := by
  refine ⟨?_, ?_, by rfl, by rfl⟩
  · intro item h
    unfold normalizeReleaseItem
    by_cases h0 : jsTruthy item
    · rcases h with h | h <;> simp [h0, h]
    · simp [h0]
  · intro item h1 h2
    unfold normalizeReleaseItem
    by_cases h0 : jsTruthy item
    · by_cases hid : jsTruthy (resolveId item)
      · by_cases hname : jsTruthy (resolveName item)
        · simp only [normalizeReleaseItem, h0, hid, hname, h1, h2]
          simp
        · simp [h0, hname]
      · simp [h0, hid]
    · simp [h0]

theorem C7_normalizeReleaseItem_rejects_witness :
    normalizeReleaseItem (.obj [("id", .str "w1")]) = none ∧
    normalizeReleaseItem
      (.obj [("id", .str "w2"), ("name", .str "W"), ("type", .str "playlist")]) = none :=
  ⟨C7_normalizeReleaseItem_rejects.1 _ (Or.inr (by rfl)),
   C7_normalizeReleaseItem_rejects.2.1 _ (by rfl) (by rfl)⟩

theorem rmFind_append_left {m : List DiscographyRelease} {i : Json} {r : DiscographyRelease}
    (h : rmFind m i = some r) (l : List DiscographyRelease) : rmFind (m ++ l) i = some r := by
  unfold rmFind at *
  simp [List.find?_append, h]

theorem rmInsert_preserves {m : List DiscographyRelease} {i : Json} {r : DiscographyRelease}
    (h : rmFind m i = some r) (o : Option DiscographyRelease) :
    rmFind (rmInsert m o) i = some r := by
  unfold rmInsert
  cases o with
  | none => exact h
  | some r' =>
    by_cases hh : rmHas m r'.id = true
    · simpa [hh] using h
    · simpa [hh] using rmFind_append_left h [r']

mutual

theorem collectReleasesDeep_preserves :
    ∀ (v : Json) (m : List DiscographyRelease) (d : Nat) (i : Json) (r : DiscographyRelease),
      rmFind m i = some r → rmFind (collectReleasesDeep v m d) i = some r
  | .null, m, d, i, r, h => by simpa [collectReleasesDeep, jsTruthy] using h
  | .bool b, m, d, i, r, h => by
      rw [collectReleasesDeep]
      case x_1 => exact fun _ hx => Json.noConfusion hx
      case x_2 => exact fun _ hx => Json.noConfusion hx
      by_cases hc : (!jsTruthy (Json.bool b) || decide (d > 10)) = true
      · rw [if_pos hc]; exact h
      · rw [if_neg hc]; exact h
  | .num n, m, d, i, r, h => by
      rw [collectReleasesDeep]
      case x_1 => exact fun _ hx => Json.noConfusion hx
      case x_2 => exact fun _ hx => Json.noConfusion hx
      by_cases hc : (!jsTruthy (Json.num n) || decide (d > 10)) = true
      · rw [if_pos hc]; exact h
      · rw [if_neg hc]; exact h
  | .str s, m, d, i, r, h => by
      rw [collectReleasesDeep]
      case x_1 => exact fun _ hx => Json.noConfusion hx
      case x_2 => exact fun _ hx => Json.noConfusion hx
      by_cases hc : (!jsTruthy (Json.str s) || decide (d > 10)) = true
      · rw [if_pos hc]; exact h
      · rw [if_neg hc]; exact h
  | .arr xs, m, d, i, r, h => by
      rw [collectReleasesDeep]
      by_cases hd : d > 10
      · rw [if_pos (by simp [jsTruthy, hd])]; exact h
      · rw [if_neg (by simp [jsTruthy, hd])]
        exact collectReleasesList_preserves xs m d i r h
  | .obj fs, m, d, i, r, h => by
      rw [collectReleasesDeep]
      by_cases hd : d > 10
      · rw [if_pos (by simp [jsTruthy, hd])]; exact h
      · rw [if_neg (by simp [jsTruthy, hd])]
        exact collectReleasesFields_preserves fs _ d i r (rmInsert_preserves h _)

theorem collectReleasesList_preserves :
    ∀ (xs : List Json) (m : List DiscographyRelease) (d : Nat) (i : Json)
      (r : DiscographyRelease),
      rmFind m i = some r → rmFind (collectReleasesList xs m d) i = some r
  | [], m, d, i, r, h => by rw [collectReleasesList]; exact h
  | x :: rest, m, d, i, r, h => by
      rw [collectReleasesList]
      exact collectReleasesList_preserves rest _ d i r
        (collectReleasesDeep_preserves x m (d + 1) i r h)

theorem collectReleasesFields_preserves :
    ∀ (fs : List (String × Json)) (m : List DiscographyRelease) (d : Nat) (i : Json)
      (r : DiscographyRelease),
      rmFind m i = some r → rmFind (collectReleasesFields fs m d) i = some r
  | [], m, d, i, r, h => by rw [collectReleasesFields]; exact h
  | (_, v) :: rest, m, d, i, r, h => by
      rw [collectReleasesFields]
      exact collectReleasesFields_preserves rest _ d i r
        (collectReleasesDeep_preserves v m (d + 1) i r h)

end

theorem insertItems_preserves :
    ∀ (items : List Json) (m : List DiscographyRelease) (i : Json) (r : DiscographyRelease),
      rmFind m i = some r → rmFind (insertItems m items) i = some r := by
  intro items
  induction items with
  | nil => intro m i r h; simpa [insertItems] using h
  | cons x xs ih =>
    intro m i r h
    simp only [insertItems, List.foldl_cons] at *
    exact ih _ i r (rmInsert_preserves h _)

/-- Claim C8: `collectReleasesDeep` returns its accumulator untouched as
soon as the depth counter passes the ceiling `10` (the recursion budget
is what bounds the walk on any input — in JS also on cyclic object
graphs, which an inductive `Json` cannot exhibit), it never overwrites
an existing entry of the release map (the first-seen release per id
survives both the deep traversal and the paged fetch's re-encounters of
the same id), and it does find releases nested within the depth budget
(the spec's nested example). -/
theorem C8_collectReleasesDeep_depth_first_wins :
    (∀ (v : Json) (m : List DiscographyRelease) (d : Nat), d > 10 →
        collectReleasesDeep v m d = m) ∧
    (∀ (v : Json) (m : List DiscographyRelease) (d : Nat) (i : Json) (r : DiscographyRelease),
        rmFind m i = some r → rmFind (collectReleasesDeep v m d) i = some r) ∧
    (∀ (items : List Json) (m : List DiscographyRelease) (i : Json) (r : DiscographyRelease),
        rmFind m i = some r → rmFind (insertItems m items) i = some r) ∧
    List.map (fun r => r.id)
      (collectReleasesDeep
        (.obj [("a", .obj [("b", .arr [.obj [("id", .str "1"), ("name", .str "X"),
          ("type", .str "album")]])])]) [] 0) = [.str "1"] := by
  refine ⟨?_, collectReleasesDeep_preserves, insertItems_preserves, by rfl⟩
  intro v m d hd
  cases v <;> simp [collectReleasesDeep, hd]

theorem C8_collectReleasesDeep_depth_first_wins_witness :
    collectReleasesDeep (.obj [("id", .str "k"), ("name", .str "Late"),
      ("type", .str "album")]) [c8Rel] 11 = [c8Rel] ∧
    rmFind (collectReleasesDeep (.obj [("id", .str "k"), ("name", .str "Late"),
      ("type", .str "album")]) [c8Rel] 0) (.str "k") = some c8Rel ∧
    rmFind (insertItems [c8Rel] [.obj [("id", .str "k"), ("name", .str "Late"),
      ("type", .str "album")]]) (.str "k") = some c8Rel :=
  ⟨C8_collectReleasesDeep_depth_first_wins.1 _ [c8Rel] 11 (by omega),
   C8_collectReleasesDeep_depth_first_wins.2.1 _ [c8Rel] 0 (.str "k") c8Rel (by rfl),
   C8_collectReleasesDeep_depth_first_wins.2.2.1 _ [c8Rel] (.str "k") c8Rel (by rfl)⟩

theorem pagedLoop_preserves :
    ∀ (pages : Nat → FetchResult) (phase : Phase) (m : List DiscographyRelease)
      (page offset maxPages : Nat) (i : Json) (r : DiscographyRelease),
      rmFind m i = some r →
      rmFind (pagedLoop pages phase m page offset maxPages).1 i = some r
  | pages, phase, m, page, offset, maxPages, i, r, h => by
    rw [pagedLoop]
    by_cases h1 : page ≥ maxPages
    · rw [if_pos h1]; exact h
    · rw [if_neg h1]
      by_cases h2 : phase = Phase.ABORTED
      · rw [if_pos h2]; exact h
      · rw [if_neg h2]
        cases hpg : pages page with
        | err e => exact h
        | ok data =>
          by_cases hi :
              (match getF data "items" with | .arr xs => xs | _ => ([] : List Json)).length = 0
          · simpa [hi] using h
          · by_cases hn : (!jsTruthy (getF data "next")) = true
            · simpa [hi, hn] using insertItems_preserves _ m i r h
            · have hrec := pagedLoop_preserves pages phase
                (insertItems m (match getF data "items" with | .arr xs => xs | _ => []))
                (page + 1) (offset + 50) maxPages i r (insertItems_preserves _ m i r h)
              simpa [hi, hn] using hrec
termination_by _ _ _ page _ maxPages _ _ _ => maxPages - page
decreasing_by omega

/-- Claim C4, amended: the paged album fetch stops paging when a page
returns zero items regardless of the `next` cursor, and stops when any
page fetch throws — including a rate-limit error, which (unlike the
claim) only stops the loop and leaves the phase untouched (the `catch`
at source lines 224-230 only logs); in every case the releases already
collected in the map are kept. -/
theorem C4_paging_stop_conditions_amended :
    (∀ (pages : Nat → FetchResult) (phase : Phase) (m : List DiscographyRelease)
        (page offset maxPages : Nat) (data : Json),
        page < maxPages → phase ≠ .ABORTED → pages page = .ok data →
        (match getF data "items" with | .arr xs => xs | _ => ([] : List Json)) = [] →
        pagedLoop pages phase m page offset maxPages = (m, 1)) ∧
    (∀ (pages : Nat → FetchResult) (phase : Phase) (m : List DiscographyRelease)
        (page offset maxPages : Nat) (e : Json),
        page < maxPages → phase ≠ .ABORTED → pages page = .err e →
        pagedLoop pages phase m page offset maxPages = (m, 1)) ∧
    (∀ (pages : Nat → FetchResult) (phase : Phase) (m : List DiscographyRelease)
        (page offset maxPages : Nat) (i : Json) (r : DiscographyRelease),
        rmFind m i = some r →
        rmFind (pagedLoop pages phase m page offset maxPages).1 i = some r) := by
  refine ⟨?_, ?_, pagedLoop_preserves⟩
  · intro pages phase m page offset maxPages data hlt hab hpg hitems
    rw [pagedLoop, if_neg (by omega), if_neg hab, hpg]
    simp [hitems]
  · intro pages phase m page offset maxPages e hlt hab hpg
    rw [pagedLoop, if_neg (by omega), if_neg hab, hpg]

/-- Claim C4, counterexample: a page fetch that rejects with a rate-limit
error (HTTP 429) does *not* set the phase to `ABORTED`: in the trace
`fetchDiscographyForArtist("A")` → overview resolves → page 0 rejects
with status 429, the rejection stops paging, the run still completes
with the release collected from the overview, and the phase is
`ARTISTVIEW` before the rejection and `IDLE` after it — never
`ABORTED`. -/
theorem C4_rate_limit_paging_counterexample :
    isRateLimitError rlErr = true ∧
    (runEvents initConfig [.call "A" false]).st.phase = .ARTISTVIEW ∧
    (runEvents initConfig
      [.call "A" false, .resolveFetch 0 (.ok trPayload)]).st.phase = .ARTISTVIEW ∧
    (runEvents initConfig [.call "A" false, .resolveFetch 0 (.ok trPayload),
      .resolveFetch 0 (.err rlErr)]).st.phase = .IDLE ∧
    (applyEv (runEvents initConfig [.call "A" false, .resolveFetch 0 (.ok trPayload)])
      (.resolveFetch 0 (.err rlErr))).2.ret = some [trRel] :=
  ⟨rfl, rfl, rfl, rfl, rfl⟩

theorem C4_paging_stop_conditions_amended_witness :
    pagedLoop (fun _ => .ok (.obj [("items", .arr []), ("next", .bool true)]))
      .ARTISTVIEW [trRel] 0 0 2 = ([trRel], 1) ∧
    pagedLoop (fun _ => .err rlErr) .ARTISTVIEW [trRel] 0 0 2 = ([trRel], 1) ∧
    rmFind (pagedLoop (fun _ => .err rlErr) .ARTISTVIEW [trRel] 0 0 2).1 (.str "r1") =
      some trRel :=
  ⟨C4_paging_stop_conditions_amended.1 _ _ _ 0 0 2 _ (by omega) (by decide) rfl (by rfl),
   C4_paging_stop_conditions_amended.2.1 _ _ _ 0 0 2 rlErr (by omega) (by decide) rfl,
   C4_paging_stop_conditions_amended.2.2 _ _ _ 0 0 2 (.str "r1") trRel (by rfl)⟩

/-- Claim C9: when the per-release detail cache already holds `albumId`,
`hydrateAlbumDetails` returns the `DiscographyRelease` projection of the
cached raw detail, invokes no fetch, waits no pacing delay, and leaves
the cache untouched. -/
theorem C9_hydrateAlbumDetails_cache_hit :
    ∀ (albumId : String) (cosmos : Bool) (res : FetchResult)
      (cache : List (String × Json)) (cached : Json),
      cache.lookup albumId = some cached →
      hydrateAlbumDetails albumId cosmos res cache =
        { result := some {
            id := .str albumId
            name := jsOr (getF cached "name") (.str albumId)
            release_date := jsOr (getF cached "release_date") (.str "")
            album_type := jsOr (getF cached "album_type") (.str "")
            uri := .str ("spotify:album:" ++ albumId)
            imageUrl := jsOr (getF (idxF (getF cached "images") 0) "url") (.str "") }
          albumCache := cache
          fetched := false
          waitedMs := 0 } := by
  intro albumId cosmos res cache cached h
  unfold hydrateAlbumDetails
  rw [h]

theorem C9_hydrateAlbumDetails_cache_hit_witness :
    hydrateAlbumDetails "a1" true (.err plainErr) [("a1", c9Cached)] =
      { result := some {
          id := .str "a1"
          name := jsOr (getF c9Cached "name") (.str "a1")
          release_date := jsOr (getF c9Cached "release_date") (.str "")
          album_type := jsOr (getF c9Cached "album_type") (.str "")
          uri := .str ("spotify:album:" ++ "a1")
          imageUrl := jsOr (getF (idxF (getF c9Cached "images") 0) "url") (.str "") }
        albumCache := [("a1", c9Cached)]
        fetched := false
        waitedMs := 0 } :=
  C9_hydrateAlbumDetails_cache_hit "a1" true (.err plainErr) [("a1", c9Cached)] c9Cached (by rfl)

/-- Claim C1, refuted by the code: `requestDiscography("A")` suspended at its
overview fetch followed by `requestDiscography("B")` does *not* abort
A's run.  `fetchDiscographyForArtist` runs `activeArtistId = artistId;
reset();` and `reset()` nulls `activeArtistId` again (source lines
347-348 and 59-63), so at B's entry `activeArtistId` is `null`, the
abort-on-different-artist guard never fires, no configuration of the
trace ever shows `ABORTED`, and when A's in-flight work resolves it
completes normally: it returns its releases and stores
`releasesByArtist["A"]` — the entry the claim says must never be
written. -/
theorem C1_supersede_abort_never_fires :
    (runEvents initConfig [.call "A" false]).st.phase = .ARTISTVIEW ∧
    (runEvents initConfig [.call "A" false]).st.activeArtistId = none ∧
    (runEvents initConfig [.call "A" false, .call "B" false]).st.phase = .ARTISTVIEW ∧
    (runEvents initConfig [.call "A" false, .call "B" false,
      .resolveFetch 0 (.ok trPayload)]).st.phase = .ARTISTVIEW ∧
    (applyEv (runEvents initConfig [.call "A" false, .call "B" false,
      .resolveFetch 0 (.ok trPayload)]) (.resolveFetch 0 (.err plainErr))).2.ret =
        some [trRel] ∧
    (runEvents initConfig [.call "A" false, .call "B" false, .resolveFetch 0 (.ok trPayload),
      .resolveFetch 0 (.err plainErr)]).st.releaseCache.lookup "A" = some [trRel] ∧
    (runEvents initConfig [.call "A" false, .call "B" false, .resolveFetch 0 (.ok trPayload),
      .resolveFetch 0 (.err plainErr)]).st.phase ≠ .ABORTED :=
  ⟨rfl, rfl, rfl, rfl, rfl, rfl, by decide⟩

/-- Claim C2, refuted by the code: a second `fetchDiscographyForArtist("A")` issued
while the first is suspended at its overview fetch does *not* observe
the in-progress run: because `reset()` (source lines 59-63) nulled
`activeArtistId` right after it was assigned (line 347-348), the
`activeArtistId === artistId` guard (line 338) is dead, so the second
call starts a second pipeline and a second overview fetch instead of
returning `currentReleases` — afterwards two overview fetches for "A"
are in flight. -/
theorem C2_second_call_starts_second_pipeline :
    (applyEv (runEvents initConfig [.call "A" false]) (.call "A" false)).2.startedOverview =
      true ∧
    (applyEv (runEvents initConfig [.call "A" false]) (.call "A" false)).2.ret = none ∧
    (runEvents initConfig [.call "A" false, .call "A" false]).tasks =
      [{ artist := "A", finThrows := false, k := .atOverview },
       { artist := "A", finThrows := false, k := .atOverview }] :=
  ⟨rfl, rfl, rfl⟩

/-- Claim C3, amended: a run whose overview fetch rejects, resolves with
a falsy payload, or finds the phase already `ABORTED` at the overview
checkpoint returns `[]` and stores nothing in the per-artist cache, and
so does a run that found no releases; the unexpected-error path also
stores nothing but returns the *previous* value of the module global
`currentReleases` (so only incidentally an empty list); an abort that
lands after the overview result was consumed does not stop the run from
caching (see the counterexample). -/
theorem C3_failed_outcomes_amended :
    (∀ (a : String) (ft : Bool) (e : Json) (st : St),
        (resumeOverview a ft (.err e) st).2 = .ret [] ∧
        (resumeOverview a ft (.err e) st).1.releaseCache = st.releaseCache) ∧
    (∀ (a : String) (ft : Bool) (data : Json) (st : St),
        jsTruthy data = false →
        (resumeOverview a ft (.ok data) st).2 = .ret [] ∧
        (resumeOverview a ft (.ok data) st).1.releaseCache = st.releaseCache) ∧
    (∀ (a : String) (ft : Bool) (data : Json) (st : St),
        st.phase = .ABORTED →
        (resumeOverview a ft (.ok data) st).2 = .ret [] ∧
        (resumeOverview a ft (.ok data) st).1.releaseCache = st.releaseCache) ∧
    (∀ (a : String) (ft : Bool) (st : St),
        (finalize a ft [] st).2 = [] ∧
        (finalize a ft [] st).1.releaseCache = st.releaseCache) ∧
    (∀ (a : String) (m : List DiscographyRelease) (st : St),
        m ≠ [] →
        (finalize a true m st).2 = st.currentReleases ∧
        (finalize a true m st).1.releaseCache = st.releaseCache) := by
  refine ⟨?_, ?_, ?_, ?_, ?_⟩
  · intro a ft e st
    unfold resumeOverview overviewFailedTail resetSt
    by_cases hrl : isRateLimitError e = true <;> simp [hrl, transitionPhase]
  · intro a ft data st hdata
    unfold resumeOverview overviewFailedTail resetSt
    by_cases hab : st.phase = Phase.ABORTED <;> simp [hab, hdata, transitionPhase]
  · intro a ft data st hab
    unfold resumeOverview overviewFailedTail resetSt
    simp [hab, transitionPhase]
  · intro a ft st
    unfold finalize resetSt transitionPhase
    simp
  · intro a m st hm
    unfold finalize resetSt transitionPhase
    simp [hm]

/-- Claim C3, counterexample: a run that *was* aborted
(`abortDiscographyFetch` fires while page 0 is in flight, the phase
becomes `ABORTED`) nevertheless returns a non-empty list and stores an
entry in the per-artist cache: the page-0 rejection falls through to the
finalization, which never re-checks the phase (source lines 371-399). -/
theorem C3_aborted_run_still_caches_counterexample :
    (runEvents initConfig [.call "A" false, .resolveFetch 0 (.ok trPayload),
      .abortExt]).st.phase = .ABORTED ∧
    (applyEv (runEvents initConfig [.call "A" false, .resolveFetch 0 (.ok trPayload),
      .abortExt]) (.resolveFetch 0 (.err plainErr))).2.ret = some [trRel] ∧
    (runEvents initConfig [.call "A" false, .resolveFetch 0 (.ok trPayload), .abortExt,
      .resolveFetch 0 (.err plainErr)]).st.releaseCache.lookup "A" = some [trRel] :=
  ⟨rfl, rfl, rfl⟩

theorem C3_failed_outcomes_amended_witness :
    (resumeOverview "A" false (.err plainErr) c3StaleSt).2 = .ret [] ∧
    (resumeOverview "A" false (.ok .null) c3StaleSt).2 = .ret [] ∧
    (finalize "A" false [] c3StaleSt).2 = [] ∧
    (finalize "A" true [c8Rel] c3StaleSt).2 = [trRel] :=
  ⟨(C3_failed_outcomes_amended.1 "A" false plainErr c3StaleSt).1,
   (C3_failed_outcomes_amended.2.1 "A" false .null c3StaleSt (by rfl)).1,
   (C3_failed_outcomes_amended.2.2.2.1 "A" false c3StaleSt).1,
   (C3_failed_outcomes_amended.2.2.2.2 "A" [c8Rel] c3StaleSt (by simp)).1⟩

theorem overviewFailedTail_eq (st : St) : overviewFailedTail st = (resetSt st, []) := by
  unfold overviewFailedTail resetSt
  simp

theorem finalize_fst_phase (a : String) (ft : Bool) (m : List DiscographyRelease) (st : St) :
    (finalize a ft m st).1.phase = .IDLE := by
  unfold finalize transitionPhase resetSt
  split_ifs <;> rfl

theorem finalize_fst_active (a : String) (ft : Bool) (m : List DiscographyRelease) (st : St) :
    (finalize a ft m st).1.activeArtistId = none := by
  unfold finalize transitionPhase resetSt
  split_ifs <;> rfl

theorem resumeOverview_shape (a : String) (ft : Bool) (res : FetchResult) (st : St) :
    ((resumeOverview a ft res st).1.phase = .IDLE ∧
     (resumeOverview a ft res st).1.activeArtistId = none ∧
     ∃ v, (resumeOverview a ft res st).2 = .ret v) ∨
    ((resumeOverview a ft res st).1 = st ∧
     ∃ m, (resumeOverview a ft res st).2 = .toPage m) := by
  unfold resumeOverview
  cases res with
  | err e =>
    left
    simp [overviewFailedTail_eq, resetSt]
  | ok data =>
    by_cases h1 : st.phase = Phase.ABORTED
    · left; simp [h1, overviewFailedTail_eq, resetSt]
    · by_cases h2 : jsTruthy data
      · by_cases h3 : st.cosmosAvailable
        · right
          simp [h1, h2, h3]
        · left
          simp [h1, h2, h3, finalize_fst_phase, finalize_fst_active]
      · left
        simp [h1, h2, overviewFailedTail_eq, resetSt]

theorem resumePage_shape (a : String) (ft : Bool) (m : List DiscographyRelease)
    (p off : Nat) (res : FetchResult) (st : St) :
    ((resumePage a ft m p off res st).1.phase = .IDLE ∧
     (resumePage a ft m p off res st).1.activeArtistId = none ∧
     ∃ v, (resumePage a ft m p off res st).2 = .ret v) ∨
    ((resumePage a ft m p off res st).1 = st ∧
     ∃ m2, (resumePage a ft m p off res st).2 = .toDelay m2 (p + 1) (off + 50)) := by
  unfold resumePage
  cases res with
  | err e => left; simp [finalize_fst_phase, finalize_fst_active]
  | ok data =>
    by_cases h1 : (match getF data "items" with | .arr xs => xs | _ => ([] : List Json)).length = 0
    · left; simp [h1, finalize_fst_phase, finalize_fst_active]
    · by_cases h2 : (!jsTruthy (getF data "next")) = true
      · left; simp [h1, h2, finalize_fst_phase, finalize_fst_active]
      · right; simp [h1, h2]

theorem resumeDelay_shape (a : String) (ft : Bool) (m : List DiscographyRelease)
    (p off : Nat) (st : St) :
    ((resumeDelay a ft m p off st).1.phase = .IDLE ∧
     (resumeDelay a ft m p off st).1.activeArtistId = none ∧
     ∃ v, (resumeDelay a ft m p off st).2 = .ret v) ∨
    (p < 2 ∧ (resumeDelay a ft m p off st).1 = st ∧
     (resumeDelay a ft m p off st).2 = .toPage m p off) := by
  unfold resumeDelay
  by_cases h1 : p ≥ 2
  · left; simp [h1, finalize_fst_phase, finalize_fst_active]
  · by_cases h2 : st.phase = Phase.ABORTED
    · left; simp [h1, h2, finalize_fst_phase, finalize_fst_active]
    · right; simp [h1, h2]; omega

theorem callStart_cache_hit {a : String} {st : St} {l : List DiscographyRelease}
    (hn : st.activeArtistId = none) (hl : st.releaseCache.lookup a = some l) :
    callStart a st = (st, .ret l) := by
  unfold callStart
  simp [hn, hl]

theorem callStart_active {a : String} {st : St} (hn : st.activeArtistId = none) :
    (callStart a st).1.activeArtistId = none := by
  unfold callStart
  simp only [hn]
  cases hl : st.releaseCache.lookup a with
  | some cached => exact hn
  | none =>
    by_cases hc : st.cosmosAvailable <;>
      simp [hn, hc, resetSt, transitionPhase, overviewFailedTail_eq]

theorem pair_eq_of_snd {α β : Type _} {p : α × β} {x : β} (h : p.2 = x) : p = (p.1, x) := by
  obtain ⟨a, b⟩ := p
  cases h
  rfl

theorem resumeOverview_shape' (a : String) (ft : Bool) (res : FetchResult) (st : St) :
    (∃ st' v, resumeOverview a ft res st = (st', .ret v) ∧
      st'.phase = .IDLE ∧ st'.activeArtistId = none) ∨
    (∃ m, resumeOverview a ft res st = (st, .toPage m)) := by
  rcases resumeOverview_shape a ft res st with ⟨hph, hac, v, hret⟩ | ⟨hst, m, hsus⟩
  · exact Or.inl ⟨_, v, pair_eq_of_snd hret, hph, hac⟩
  · refine Or.inr ⟨m, ?_⟩
    rw [pair_eq_of_snd hsus, hst]

theorem resumePage_shape' (a : String) (ft : Bool) (m : List DiscographyRelease)
    (p off : Nat) (res : FetchResult) (st : St) :
    (∃ st' v, resumePage a ft m p off res st = (st', .ret v) ∧
      st'.phase = .IDLE ∧ st'.activeArtistId = none) ∨
    (∃ m2, resumePage a ft m p off res st = (st, .toDelay m2 (p + 1) (off + 50))) := by
  rcases resumePage_shape a ft m p off res st with ⟨hph, hac, v, hret⟩ | ⟨hst, m2, hsus⟩
  · exact Or.inl ⟨_, v, pair_eq_of_snd hret, hph, hac⟩
  · refine Or.inr ⟨m2, ?_⟩
    rw [pair_eq_of_snd hsus, hst]

theorem resumeDelay_shape' (a : String) (ft : Bool) (m : List DiscographyRelease)
    (p off : Nat) (st : St) :
    (∃ st' v, resumeDelay a ft m p off st = (st', .ret v) ∧
      st'.phase = .IDLE ∧ st'.activeArtistId = none) ∨
    (p < 2 ∧ resumeDelay a ft m p off st = (st, .toPage m p off)) := by
  rcases resumeDelay_shape a ft m p off st with ⟨hph, hac, v, hret⟩ | ⟨hlt, hst, hsus⟩
  · exact Or.inl ⟨_, v, pair_eq_of_snd hret, hph, hac⟩
  · refine Or.inr ⟨hlt, ?_⟩
    rw [pair_eq_of_snd hsus, hst]

theorem stepC_active_none (c : Config) (e : Ev) (h : c.st.activeArtistId = none) :
    (stepC c e).st.activeArtistId = none := by
  cases e with
  | call a ft =>
    simp only [stepC, applyEv]
    rcases hcs : callStart a c.st with ⟨st', o⟩
    have hact : st'.activeArtistId = none := by
      have := @callStart_active a c.st h
      rw [hcs] at this
      exact this
    cases o <;> simp [hcs] <;> exact hact
  | resolveFetch i res =>
    simp only [stepC, applyEv]
    cases ht : c.tasks.get? i with
    | none => exact h
    | some t =>
      cases hk : t.k with
      | atOverview =>
        rcases resumeOverview_shape' t.artist t.finThrows res c.st with
          ⟨stx, v, heq, hph, hac⟩ | ⟨m, heq⟩
        · simp [hk, heq]
          exact hac
        · simp [hk, heq]
          exact h
      | atPage m p off =>
        rcases resumePage_shape' t.artist t.finThrows m p off res c.st with
          ⟨stx, v, heq, hph, hac⟩ | ⟨m2, heq⟩
        · simp [hk, heq]
          exact hac
        · simp [hk, heq]
          exact h
      | atDelay m p off =>
        simp [hk]
        exact h
  | elapse i =>
    simp only [stepC, applyEv]
    cases ht : c.tasks.get? i with
    | none => exact h
    | some t =>
      cases hk : t.k with
      | atOverview =>
        simp [hk]
        exact h
      | atPage m p off =>
        simp [hk]
        exact h
      | atDelay m p off =>
        rcases resumeDelay_shape' t.artist t.finThrows m p off c.st with
          ⟨stx, v, heq, hph, hac⟩ | ⟨hlt, heq⟩
        · simp [hk, heq]
          exact hac
        · simp [hk, heq]
          exact h
  | abortExt =>
    simp only [stepC, applyEv, abortDiscographyFetch, abortCurrentWork, transitionPhase]
    split
    · rfl
    · exact h

theorem reachable_active_none : ∀ c : Config, Reachable c → c.st.activeArtistId = none := by
  intro c hr
  induction hr with
  | init => rfl
  | next e _ ih => exact stepC_active_none _ e ih

/-- Claim C5: in every reachable configuration of the controller, a
`fetchDiscographyForArtist(a)` call whose artist is already in
`discographyReleaseCache` returns exactly the cached list, changes no
state (in particular it performs no phase transition), spawns no
in-flight work and starts no fetch.  (Reachability matters: the
abort-on-different-artist guard at source line 324 sits *before* the
cache check, but it can never fire because `activeArtistId` is `null` in
every reachable configuration — `reset()` clears it immediately after
every assignment.) -/
theorem C5_cache_short_circuit :
    ∀ (c : Config), Reachable c →
      ∀ (a : String) (ft : Bool) (l : List DiscographyRelease),
        c.st.releaseCache.lookup a = some l →
        applyEv c (.call a ft) =
          (c, { ret := some l, startedOverview := false, startedPage := false }) := by
  intro c hr a ft l hl
  have hn := reachable_active_none c hr
  simp only [applyEv]
  rw [callStart_cache_hit hn hl]
  rfl

theorem C5_cache_short_circuit_witness :
    applyEv (runEvents initConfig [.call "A" false, .resolveFetch 0 (.ok trPayload),
        .resolveFetch 0 (.err plainErr)]) (.call "A" true) =
      (runEvents initConfig [.call "A" false, .resolveFetch 0 (.ok trPayload),
          .resolveFetch 0 (.err plainErr)],
       { ret := some [trRel], startedOverview := false, startedPage := false }) :=
  C5_cache_short_circuit _
    (Reachable.next (.resolveFetch 0 (.err plainErr))
      (Reachable.next (.resolveFetch 0 (.ok trPayload))
        (Reachable.next (.call "A" false) Reachable.init)))
    "A" true [trRel] (by rfl)

theorem callStart_rest (a : String) (st : St) (hp : st.phase = .IDLE)
    (hn : st.activeArtistId = none) :
    (∃ v, callStart a st = (st, .ret v)) ∨
    (st.cosmosAvailable = true ∧
     callStart a st = ({ st with phase := .ARTISTVIEW }, .suspendOverview)) := by
  obtain ⟨ph, act, rc, ac, cr, cos⟩ := st
  dsimp only at hp hn ⊢
  subst hp
  subst hn
  unfold callStart
  cases hl : List.lookup a rc with
  | some cached =>
    left
    exact ⟨cached, by simp [hl]⟩
  | none =>
    cases cos with
    | false =>
      left
      refine ⟨[], ?_⟩
      simp [hl, resetSt, transitionPhase, overviewFailedTail_eq]
    | true =>
      right
      refine ⟨rfl, ?_⟩
      simp [hl, resetSt, transitionPhase]

theorem stepC_no_tasks_resolve (st : St) (i : Nat) (res : FetchResult) :
    stepC { st := st, tasks := [] } (.resolveFetch i res) = { st := st, tasks := [] } := rfl

theorem stepC_no_tasks_elapse (st : St) (i : Nat) :
    stepC { st := st, tasks := [] } (.elapse i) = { st := st, tasks := [] } := rfl

/-- Claim C10: a single non-interleaved `fetchDiscographyForArtist` call,
started from the controller's rest state (phase `IDLE`, no active
artist — the state every completed call leaves behind and the state the
module loads in) and driven to resolution by any fetch outcomes
whatsoever (success, empty payload, failure, or rate-limit abort),
leaves the module again at phase `IDLE` with `activeArtistId = null` and
no in-flight work: the terminal phases `DONE` and `ABORTED` are never
observable once the call has resolved.  The six-event schedule below
drives every possible shape of the pipeline to completion (later events
are no-ops once the call has returned). -/
theorem C10_resolved_call_ends_idle :
    ∀ (st : St) (a : String) (ft : Bool) (r1 r2 r3 : FetchResult),
      st.phase = .IDLE → st.activeArtistId = none →
      ((runEvents { st := st, tasks := [] }
          [.call a ft, .resolveFetch 0 r1, .resolveFetch 0 r2, .elapse 0,
           .resolveFetch 0 r3, .elapse 0]).st.phase = .IDLE ∧
       (runEvents { st := st, tasks := [] }
          [.call a ft, .resolveFetch 0 r1, .resolveFetch 0 r2, .elapse 0,
           .resolveFetch 0 r3, .elapse 0]).st.activeArtistId = none ∧
       (runEvents { st := st, tasks := [] }
          [.call a ft, .resolveFetch 0 r1, .resolveFetch 0 r2, .elapse 0,
           .resolveFetch 0 r3, .elapse 0]).tasks = []) := by
  intro st a ft r1 r2 r3 hp hn
  simp only [runEvents, List.foldl_cons, List.foldl_nil]
  rcases callStart_rest a st hp hn with ⟨v, hcs⟩ | ⟨hcos, hcs⟩
  · have h1 : stepC { st := st, tasks := [] } (.call a ft) = { st := st, tasks := [] } := by
      simp only [stepC, applyEv]
      rw [hcs]
    rw [h1]
    simp only [stepC_no_tasks_resolve, stepC_no_tasks_elapse]
    exact ⟨hp, hn, by trivial⟩
  · have h1 : stepC { st := st, tasks := [] } (.call a ft) =
        ⟨{ st with phase := .ARTISTVIEW }, [⟨a, ft, .atOverview⟩]⟩ := by
      simp only [stepC, applyEv]
      rw [hcs]
      rfl
    rw [h1]
    rcases resumeOverview_shape' a ft r1 { st with phase := .ARTISTVIEW } with
      ⟨st', v, heq, hph, hac⟩ | ⟨m, heq⟩
    · have h2 : stepC ⟨{ st with phase := .ARTISTVIEW }, [⟨a, ft, .atOverview⟩]⟩
          (.resolveFetch 0 r1) = ⟨st', []⟩ := by
        simp only [stepC, applyEv]
        simp [heq]
      rw [h2]
      simp only [stepC_no_tasks_resolve, stepC_no_tasks_elapse]
      exact ⟨hph, hac, by trivial⟩
    · have h2 : stepC ⟨{ st with phase := .ARTISTVIEW }, [⟨a, ft, .atOverview⟩]⟩
          (.resolveFetch 0 r1) =
          ⟨{ st with phase := .ARTISTVIEW }, [⟨a, ft, .atPage m 0 0⟩]⟩ := by
        simp only [stepC, applyEv]
        simp [heq]
      rw [h2]
      rcases resumePage_shape' a ft m 0 0 r2 { st with phase := .ARTISTVIEW } with
        ⟨st', v, heq3, hph, hac⟩ | ⟨m2, heq3⟩
      · have h3 : stepC ⟨{ st with phase := .ARTISTVIEW }, [⟨a, ft, .atPage m 0 0⟩]⟩
            (.resolveFetch 0 r2) = ⟨st', []⟩ := by
          simp only [stepC, applyEv]
          simp [heq3]
        rw [h3]
        simp only [stepC_no_tasks_resolve, stepC_no_tasks_elapse]
        exact ⟨hph, hac, by trivial⟩
      · have h3 : stepC ⟨{ st with phase := .ARTISTVIEW }, [⟨a, ft, .atPage m 0 0⟩]⟩
            (.resolveFetch 0 r2) =
            ⟨{ st with phase := .ARTISTVIEW }, [⟨a, ft, .atDelay m2 1 50⟩]⟩ := by
          simp only [stepC, applyEv]
          simp [heq3]
        rw [h3]
        rcases resumeDelay_shape' a ft m2 1 50 { st with phase := .ARTISTVIEW } with
          ⟨st', v, heq4, hph, hac⟩ | ⟨hlt4, heq4⟩
        · have h4 : stepC ⟨{ st with phase := .ARTISTVIEW }, [⟨a, ft, .atDelay m2 1 50⟩]⟩
              (.elapse 0) = ⟨st', []⟩ := by
            simp only [stepC, applyEv]
            simp [heq4]
          rw [h4]
          simp only [stepC_no_tasks_resolve, stepC_no_tasks_elapse]
          exact ⟨hph, hac, by trivial⟩
        · have h4 : stepC ⟨{ st with phase := .ARTISTVIEW }, [⟨a, ft, .atDelay m2 1 50⟩]⟩
              (.elapse 0) =
              ⟨{ st with phase := .ARTISTVIEW }, [⟨a, ft, .atPage m2 1 50⟩]⟩ := by
            simp only [stepC, applyEv]
            simp [heq4]
          rw [h4]
          rcases resumePage_shape' a ft m2 1 50 r3 { st with phase := .ARTISTVIEW } with
            ⟨st', v, heq5, hph, hac⟩ | ⟨m3, heq5⟩
          · have h5 : stepC ⟨{ st with phase := .ARTISTVIEW }, [⟨a, ft, .atPage m2 1 50⟩]⟩
                (.resolveFetch 0 r3) = ⟨st', []⟩ := by
              simp only [stepC, applyEv]
              simp [heq5]
            rw [h5]
            simp only [stepC_no_tasks_elapse]
            exact ⟨hph, hac, by trivial⟩
          · have h5 : stepC ⟨{ st with phase := .ARTISTVIEW }, [⟨a, ft, .atPage m2 1 50⟩]⟩
                (.resolveFetch 0 r3) =
                ⟨{ st with phase := .ARTISTVIEW }, [⟨a, ft, .atDelay m3 2 100⟩]⟩ := by
              simp only [stepC, applyEv]
              simp [heq5]
            rw [h5]
            rcases resumeDelay_shape' a ft m3 2 100 { st with phase := .ARTISTVIEW } with
              ⟨st', v, heq6, hph, hac⟩ | ⟨hlt6, heq6⟩
            · have h6 : stepC ⟨{ st with phase := .ARTISTVIEW }, [⟨a, ft, .atDelay m3 2 100⟩]⟩
                  (.elapse 0) = ⟨st', []⟩ := by
                simp only [stepC, applyEv]
                simp [heq6]
              rw [h6]
              exact ⟨hph, hac, by trivial⟩
            · omega

theorem C10_resolved_call_ends_idle_witness :
    ((runEvents { st := initSt, tasks := [] }
        [.call "A" false, .resolveFetch 0 (.ok trPayload), .resolveFetch 0 (.err plainErr),
         .elapse 0, .resolveFetch 0 (.err plainErr), .elapse 0]).st.phase = .IDLE ∧
     (runEvents { st := initSt, tasks := [] }
        [.call "A" false, .resolveFetch 0 (.ok trPayload), .resolveFetch 0 (.err plainErr),
         .elapse 0, .resolveFetch 0 (.err plainErr), .elapse 0]).st.activeArtistId = none ∧
     (runEvents { st := initSt, tasks := [] }
        [.call "A" false, .resolveFetch 0 (.ok trPayload), .resolveFetch 0 (.err plainErr),
         .elapse 0, .resolveFetch 0 (.err plainErr), .elapse 0]).tasks = []) :=
  C10_resolved_call_ends_idle initSt "A" false (.ok trPayload) (.err plainErr)
    (.err plainErr) rfl rfl
